import Mathlib

/-!
Shallow embedding of `SolarController::adjust` from
`src/Firmware/SolarController.cpp`.

The C++ function reads the clock, the two micro switches and the two LDR
light sensors, and then drives the two motor relay channels
(`RelayModule4chPins[0]` and `RelayModule4chPins[1]`) and the serial log.
We model one call of `adjust` as a pure function from its inputs to the
ordered list of observable effects it performs (serial prints, digital
writes, LDR reads), together with the updated member fields of the class.
Relay pin levels are obtained by folding the digital writes over a pin
state, so that every intermediate pin state within a call is available.
Floating point samples are modelled by rational numbers.
-/

/-- Output pins touched by `adjust`: the two switch indicator LEDs
(`LEDB_PIN_VIN`, `LEDY_PIN_VIN`) and the two motor relay channels
(`RelayModule4chPins[0]`, `RelayModule4chPins[1]`). -/
inductive Pin where
  | ledB
  | ledY
  | relay0
  | relay1
deriving DecidableEq

/-- The two analog light sensors read in `adjust` (`ldr_1`, `ldr_2`). -/
inductive Ldr where
  | ldr1
  | ldr2
deriving DecidableEq, BEq

/-- Observable actions performed by one call of `adjust`, in program order.
`serialPrint` and `serialPrintln` model `Serial.print` / `Serial.println`,
`digitalWrite` models `digitalWrite(pin, level)` with `HIGH = true`,
`ldrRead` records one invocation of `read()` on a light sensor together
with the raw value it returned. -/
inductive Effect where
  | serialPrint (s : String)
  | serialPrintln (s : String)
  | digitalWrite (pin : Pin) (level : Bool)
  | ldrRead (sensor : Ldr) (value : ℚ)
deriving DecidableEq

/-- Values the environment supplies to one call of `adjust`: the `millis()`
reading, the raw levels of the two micro switches, the values returned by
the two consecutive `read()` calls on each LDR, and the global
`isAdjusting` flag. -/
structure Inputs where
  millis : ℕ
  microSwitch1 : Bool
  microSwitch2 : Bool
  ldr1First : ℚ
  ldr1Second : ℚ
  ldr2First : ℚ
  ldr2Second : ℚ
  isAdjusting : Bool
deriving DecidableEq

/-- Calibration constants referenced by `adjust` (globals set elsewhere). -/
structure Config where
  left_cal : ℚ
  right_cal : ℚ
  THRESHOLD_TURN : ℚ
deriving DecidableEq

/-- Member fields of `SolarController` assigned during `adjust`. -/
structure ControllerState where
  leftSwitchActive : Bool
  rightSwitchActive : Bool
deriving DecidableEq

/-- Levels of the two motor relay channels (`true` = energized). -/
structure RelayState where
  relay0 : Bool
  relay1 : Bool
deriving DecidableEq

/-- How Arduino `Serial.print` renders a `bool`. -/
def printBool (b : Bool) : String := if b then "1" else "0"

/-- Calibrated left sample, line 27 of the source:
`leftSample = ldr_2.read() * left_cal` (the second `ldr_2` read). -/
def leftSample (c : Config) (i : Inputs) : ℚ := i.ldr2Second * c.left_cal

/-- Calibrated right sample, line 24 of the source:
`rightSample = ldr_1.read() * right_cal` (the second `ldr_1` read). -/
def rightSample (c : Config) (i : Inputs) : ℚ := i.ldr1Second * c.right_cal

/-- The light difference, line 30: `ldr_1Diff = leftSample - rightSample`. -/
def ldr_1Diff (c : Config) (i : Inputs) : ℚ := leftSample c i - rightSample c i

/-- Effects of lines 7 to 41 of `adjust`: print the runtime, read the two
micro switches, mirror them to the indicator LEDs and print them, perform
the two `read()` calls on each LDR, and print the calibrated samples and
their difference. -/
def headerEffects (c : Config) (i : Inputs) : List Effect :=
  [Effect.serialPrint (toString (i.millis / 1000)), Effect.serialPrint "s ",
   Effect.digitalWrite Pin.ledB (!i.microSwitch1),
   Effect.serialPrint (printBool (!i.microSwitch1)), Effect.serialPrint "L/",
   Effect.digitalWrite Pin.ledY (!i.microSwitch2),
   Effect.serialPrint (printBool (!i.microSwitch2)), Effect.serialPrint "R ",
   Effect.ldrRead Ldr.ldr1 i.ldr1First, Effect.ldrRead Ldr.ldr1 i.ldr1Second,
   Effect.ldrRead Ldr.ldr2 i.ldr2First, Effect.ldrRead Ldr.ldr2 i.ldr2Second,
   Effect.serialPrint "Left: ", Effect.serialPrint (toString (leftSample c i)),
   Effect.serialPrint " - ",
   Effect.serialPrint "Right: ", Effect.serialPrint (toString (rightSample c i)),
   Effect.serialPrint " - ",
   Effect.serialPrint "Diff: ", Effect.serialPrint (toString (ldr_1Diff c i))]

/-- Effects of lines 43 to 90 of `adjust`: the threshold gate, the two
independent direction checks with limit-switch and `isAdjusting` gating,
and the closing log line. -/
def branchEffects (c : Config) (i : Inputs) : List Effect :=
  let leftSwitchActive := !i.microSwitch1
  let rightSwitchActive := !i.microSwitch2
  if |ldr_1Diff c i| > c.THRESHOLD_TURN then
    [Effect.serialPrint " (turn"]
    ++ (if leftSample c i > rightSample c i then
          [Effect.serialPrint " left", Effect.digitalWrite Pin.relay0 false]
          ++ (if leftSwitchActive then [Effect.digitalWrite Pin.relay1 false]
              else if i.isAdjusting then [Effect.digitalWrite Pin.relay1 true]
              else [])
        else [])
    ++ (if leftSample c i < rightSample c i then
          [Effect.serialPrint " right", Effect.digitalWrite Pin.relay1 false]
          ++ (if rightSwitchActive then [Effect.digitalWrite Pin.relay0 false]
              else if i.isAdjusting then [Effect.digitalWrite Pin.relay0 true]
              else [])
        else [])
    ++ (if i.isAdjusting then [Effect.serialPrintln ") "]
        else [Effect.digitalWrite Pin.relay1 false,
              Effect.digitalWrite Pin.relay0 false,
              Effect.serialPrintln " - sleeping)"])
  else
    [Effect.digitalWrite Pin.relay1 false, Effect.digitalWrite Pin.relay0 false,
     Effect.serialPrintln (if i.isAdjusting then " nothing to do" else " sleeping")]

/-- One call of `SolarController::adjust`. Returns the member fields as
assigned on lines 11 and 16 (each is overwritten before it is read, so the
incoming state is never consulted) and the ordered effect list. -/
def adjust (c : Config) (i : Inputs) (_cs : ControllerState) :
    ControllerState × List Effect :=
  (⟨!i.microSwitch1, !i.microSwitch2⟩, headerEffects c i ++ branchEffects c i)

/-- Apply one effect to the relay pin state: only digital writes to the two
relay channels change it. -/
def applyEffect (s : RelayState) : Effect → RelayState
  | Effect.digitalWrite Pin.relay0 b => { s with relay0 := b }
  | Effect.digitalWrite Pin.relay1 b => { s with relay1 := b }
  | _ => s

/-- The relay pin state after performing a list of effects. -/
def runEffects (s : RelayState) (effs : List Effect) : RelayState :=
  effs.foldl applyEffect s

/-- All relay pin states visited while performing a list of effects,
starting state included. -/
def relayTrace (s : RelayState) : List Effect → List RelayState
  | [] => [s]
  | e :: es => s :: relayTrace (applyEffect s e) es

/-- At most one of the two motor relays is energized. -/
def atMostOneB (s : RelayState) : Bool := !(s.relay0 && s.relay1)

/-- The digital writes of an effect list, in order, as pin-level pairs. -/
def writeList : List Effect → List (Pin × Bool)
  | [] => []
  | Effect.digitalWrite p b :: es => (p, b) :: writeList es
  | _ :: es => writeList es

/-- The text sent to the serial log by an effect list, line terminators
omitted. -/
def lineOf : List Effect → String
  | [] => ""
  | Effect.serialPrint s :: es => s ++ lineOf es
  | Effect.serialPrintln s :: es => s ++ lineOf es
  | _ :: es => lineOf es

/-- Number of `Serial.println` calls (line terminators) in an effect list. -/
def printlnCount (effs : List Effect) : ℕ :=
  effs.countP fun e => match e with
    | Effect.serialPrintln _ => true
    | _ => false

/-- Number of `read()` calls on the given LDR in an effect list. -/
def ldrReadCount (sensor : Ldr) (effs : List Effect) : ℕ :=
  effs.countP fun e => match e with
    | Effect.ldrRead t _ => t == sensor
    | _ => false

/-- Number of direction-marker prints (the first statement of each of the
two direction if-bodies) in an effect list. -/
def directionMarkCount (effs : List Effect) : ℕ :=
  effs.countP fun e => match e with
    | Effect.serialPrint s => s == " left" || s == " right"
    | _ => false

/-- `pat` occurs as a contiguous substring of `s`. -/
def strContainsSub (s pat : String) : Prop :=
  List.IsInfix pat.toList s.toList

instance (s pat : String) : Decidable (strContainsSub s pat) :=
  List.decidableInfix pat.toList s.toList

/-- All relay pin states visited over a sequence of calls of `adjust`,
threading both the member fields and the relay pin state from call to
call. -/
def multiTickStates (c : Config) (cs : ControllerState) (rs : RelayState) :
    List Inputs → List RelayState
  | [] => [rs]
  | i :: rest =>
      relayTrace rs (adjust c i cs).2
        ++ multiTickStates c (adjust c i cs).1 (runEffects rs (adjust c i cs).2) rest

lemma runEffects_cons (s : RelayState) (e : Effect) (es : List Effect) :
    runEffects s (e :: es) = runEffects (applyEffect s e) es := by
  simp [runEffects]

lemma self_mem_relayTrace (s : RelayState) (effs : List Effect) :
    s ∈ relayTrace s effs := by
  cases effs <;> simp [relayTrace]

lemma mem_relayTrace_append {s2 s : RelayState} {xs ys : List Effect} :
    s2 ∈ relayTrace s (xs ++ ys)
      ↔ s2 ∈ relayTrace s xs ∨ s2 ∈ relayTrace (runEffects s xs) ys := by
  induction xs generalizing s with
  | nil =>
      simp only [List.nil_append, relayTrace, runEffects, List.foldl_nil,
        List.mem_singleton]
      constructor
      · intro h; exact Or.inr h
      · rintro (h | h)
        · subst h; exact self_mem_relayTrace s2 ys
        · exact h
  | cons e es ih => simp [relayTrace, runEffects_cons, ih, or_assoc]

lemma runEffects_mem_relayTrace (s : RelayState) (effs : List Effect) :
    runEffects s effs ∈ relayTrace s effs := by
  induction effs generalizing s with
  | nil => simp [relayTrace, runEffects]
  | cons e es ih =>
      simp only [relayTrace, runEffects_cons, List.mem_cons]
      exact Or.inr (ih (applyEffect s e))

lemma runEffects_headerEffects (c : Config) (i : Inputs) (rs : RelayState) :
    runEffects rs (headerEffects c i) = rs := by
  simp [headerEffects, runEffects, applyEffect]

lemma mem_relayTrace_headerEffects {c : Config} {i : Inputs} {rs s : RelayState}
    (h : s ∈ relayTrace rs (headerEffects c i)) : s = rs := by
  simp [headerEffects, relayTrace, applyEffect] at h
  exact h

lemma branch_trace_atMostOne (c : Config) (i : Inputs) (rs : RelayState)
    (h : atMostOneB rs = true) :
    ∀ s ∈ relayTrace rs (branchEffects c i), atMostOneB s = true := by
  rcases rs with ⟨a, b⟩
  by_cases ht : |ldr_1Diff c i| > c.THRESHOLD_TURN <;>
    by_cases hgt : leftSample c i > rightSample c i <;>
    by_cases hlt : leftSample c i < rightSample c i <;>
    cases hm1 : i.microSwitch1 <;>
    cases hm2 : i.microSwitch2 <;>
    cases hadj : i.isAdjusting <;>
    cases a <;> cases b <;>
    simp [branchEffects, ht, hgt, hlt, hm1, hm2, hadj, relayTrace, applyEffect,
      atMostOneB] <;>
    simp [atMostOneB] at h

lemma adjust_trace_atMostOne (c : Config) (i : Inputs) (cs : ControllerState)
    (rs : RelayState) (h : atMostOneB rs = true) :
    ∀ s ∈ relayTrace rs (adjust c i cs).2, atMostOneB s = true := by
  intro s hs
  simp only [adjust] at hs
  rw [mem_relayTrace_append] at hs
  rcases hs with hs | hs
  · rw [mem_relayTrace_headerEffects hs]; exact h
  · rw [runEffects_headerEffects] at hs
    exact branch_trace_atMostOne c i rs h s hs

lemma multiTick_atMostOne (c : Config) (ticks : List Inputs) :
    ∀ (cs : ControllerState) (rs : RelayState), atMostOneB rs = true →
      ∀ s ∈ multiTickStates c cs rs ticks, atMostOneB s = true := by
  induction ticks with
  | nil =>
      intro cs rs h s hs
      simp [multiTickStates] at hs
      rw [hs]; exact h
  | cons i rest ih =>
      intro cs rs h s hs
      simp only [multiTickStates, List.mem_append] at hs
      rcases hs with hs | hs
      · exact adjust_trace_atMostOne c i cs rs h s hs
      · exact ih _ _
          (adjust_trace_atMostOne c i cs rs h _ (runEffects_mem_relayTrace rs _))
          s hs

/-- C1: over any sequence of `adjust` calls started with both relays off, at
most one motor relay is commanded on at every point, including every
intermediate point between two consecutive digital writes inside a call. -/
theorem relayPairNeverBothOn (c : Config) (cs : ControllerState)
    (ticks : List Inputs) (s : RelayState)
    (h : s ∈ multiTickStates c cs ⟨false, false⟩ ticks) : atMostOneB s = true :=
  multiTick_atMostOne c ticks cs ⟨false, false⟩ rfl s h

/-- Concrete configuration used by witnesses: both calibration factors 1,
`THRESHOLD_TURN = 2`. -/
def cW : Config := ⟨1, 1, 2⟩

/-- Concrete input of scenario 1 of the spec: raw switch levels high (both
switches inactive), second LDR reads 1 (`ldr_1`, right) and 5 (`ldr_2`,
left), `isAdjusting = true`. -/
def iW1 : Inputs := ⟨0, true, true, 0, 1, 0, 5, true⟩

lemma cW_turn_gate : |ldr_1Diff cW iW1| > cW.THRESHOLD_TURN := by
  norm_num [ldr_1Diff, leftSample, rightSample, cW, iW1]

lemma cW_gt : leftSample cW iW1 > rightSample cW iW1 := by
  norm_num [leftSample, rightSample, cW, iW1]

lemma cW_not_lt : ¬ leftSample cW iW1 < rightSample cW iW1 := by
  norm_num [leftSample, rightSample, cW, iW1]

lemma multiTick_iW1 :
    (⟨false, true⟩ : RelayState)
      ∈ multiTickStates cW ⟨false, false⟩ ⟨false, false⟩ [iW1] := by
  simp [multiTickStates, adjust, headerEffects, branchEffects, relayTrace,
    applyEffect, cW_turn_gate, cW_gt, cW_not_lt,
    show iW1.microSwitch1 = true from rfl,
    show iW1.microSwitch2 = true from rfl,
    show iW1.isAdjusting = true from rfl]

/-- Witness for C1: the state reached after one scenario-1 call (right relay
on) is a reachable state and satisfies the invariant. -/
theorem relayPairNeverBothOn_witness :
    (⟨false, true⟩ : RelayState)
        ∈ multiTickStates cW ⟨false, false⟩ ⟨false, false⟩ [iW1]
      ∧ atMostOneB ⟨false, true⟩ = true :=
  ⟨multiTick_iW1,
   relayPairNeverBothOn cW ⟨false, false⟩ [iW1] ⟨false, true⟩ multiTick_iW1⟩

lemma runEffects_append (s : RelayState) (xs ys : List Effect) :
    runEffects s (xs ++ ys) = runEffects (runEffects s xs) ys := by
  simp [runEffects, List.foldl_append]

lemma writeList_append (xs ys : List Effect) :
    writeList (xs ++ ys) = writeList xs ++ writeList ys := by
  induction xs with
  | nil => simp [writeList]
  | cons e es ih => cases e <;> simp [writeList, ih]

lemma lineOf_append (xs ys : List Effect) :
    lineOf (xs ++ ys) = lineOf xs ++ lineOf ys := by
  induction xs with
  | nil => simp [lineOf]
  | cons e es ih => cases e <;> simp [lineOf, ih, String.append_assoc]

/-- The serial line of an effect list ends in the given text. -/
def strEndsWith (s pat : String) : Prop :=
  List.IsSuffix pat.toList s.toList

instance (s pat : String) : Decidable (strEndsWith s pat) :=
  inferInstanceAs (Decidable (List.IsSuffix pat.toList s.toList))

lemma toList_append (s t : String) : (s ++ t).toList = s.toList ++ t.toList := by
  simp [String.toList, String.data_append]

lemma strContainsSub_append_right (s t pat : String)
    (h : strContainsSub t pat) : strContainsSub (s ++ t) pat := by
  rw [strContainsSub, toList_append]
  exact h.trans (List.suffix_append s.toList t.toList).isInfix

lemma suffix_of_suffix_length_le {α : Type} {l1 l2 l3 : List α}
    (h1 : l1 <:+ l3) (h2 : l2 <:+ l3) (hl : l1.length ≤ l2.length) :
    l1 <:+ l2 := by
  rw [← List.reverse_prefix] at h1 h2 ⊢
  exact List.prefix_of_prefix_length_le h1 h2 (by simpa using hl)

/-- C2: when the absolute light difference is at or below `THRESHOLD_TURN`,
the call performs exactly the header effects followed by switching both
relays off and printing the closing word, so both relays end the call off
whatever the `isAdjusting` flag and whatever the previous pin levels, and
nothing further happens that call. -/
theorem gateBothRelaysOff (c : Config) (i : Inputs) (cs : ControllerState)
    (rs : RelayState) (h : |ldr_1Diff c i| ≤ c.THRESHOLD_TURN) :
    (adjust c i cs).2
        = headerEffects c i
          ++ [Effect.digitalWrite Pin.relay1 false,
              Effect.digitalWrite Pin.relay0 false,
              Effect.serialPrintln
                (if i.isAdjusting then " nothing to do" else " sleeping")]
      ∧ runEffects rs (adjust c i cs).2 = ⟨false, false⟩ := by
  have ht : ¬ |ldr_1Diff c i| > c.THRESHOLD_TURN := not_lt.mpr h
  constructor
  · simp [adjust, branchEffects, ht]
  · rcases rs with ⟨a, b⟩
    simp [adjust, branchEffects, ht, runEffects_append, runEffects_headerEffects,
      runEffects, applyEffect]

/-- Concrete input of scenario 3 of the spec: both second LDR reads 3,
`isAdjusting = true`. -/
def iW3 : Inputs := ⟨0, true, true, 0, 3, 0, 3, true⟩

/-- Witness for C2 at scenario 3. -/
theorem gateBothRelaysOff_witness :
    |ldr_1Diff cW iW3| ≤ cW.THRESHOLD_TURN
      ∧ ((adjust cW iW3 ⟨true, true⟩).2
            = headerEffects cW iW3
              ++ [Effect.digitalWrite Pin.relay1 false,
                  Effect.digitalWrite Pin.relay0 false,
                  Effect.serialPrintln
                    (if iW3.isAdjusting then " nothing to do" else " sleeping")]
          ∧ runEffects ⟨true, false⟩ (adjust cW iW3 ⟨true, true⟩).2
              = ⟨false, false⟩) :=
  ⟨by norm_num [ldr_1Diff, leftSample, rightSample, cW, iW3],
   gateBothRelaysOff cW iW3 ⟨true, true⟩ ⟨true, false⟩
     (by norm_num [ldr_1Diff, leftSample, rightSample, cW, iW3])⟩

/-- C6: the effect list of `adjust`, and hence every relay command, is a
function of the configuration and the per-call inputs alone: it does not
depend on the member fields carried over from earlier calls, and a second
call with identical inputs replays identical effects. -/
theorem adjustStateIndependent (c : Config) (i : Inputs)
    (cs cs2 : ControllerState) :
    (adjust c i cs).2 = (adjust c i cs2).2
      ∧ (adjust c i ((adjust c i cs).1)).2 = (adjust c i cs).2
      ∧ writeList (adjust c i ((adjust c i cs).1)).2
          = writeList (adjust c i cs).2 :=
  ⟨rfl, rfl, rfl⟩

/-- C7: the `millis()` value read at the start of the call influences none
of the digital writes (relays and indicator LEDs); it only appears in the
serial text. -/
theorem millisNoBehavioralEffect (c : Config) (i : Inputs)
    (cs : ControllerState) (m : ℕ) :
    writeList (adjust c { i with millis := m } cs).2
      = writeList (adjust c i cs).2 := rfl

lemma printlnCount_append (xs ys : List Effect) :
    printlnCount (xs ++ ys) = printlnCount xs + printlnCount ys :=
  List.countP_append _ _ _

lemma ldrReadCount_append (t : Ldr) (xs ys : List Effect) :
    ldrReadCount t (xs ++ ys) = ldrReadCount t xs + ldrReadCount t ys :=
  List.countP_append _ _ _

lemma printlnCount_branchEffects (c : Config) (i : Inputs) :
    printlnCount (branchEffects c i) = 1 := by
  by_cases ht : |ldr_1Diff c i| > c.THRESHOLD_TURN <;>
    by_cases hgt : leftSample c i > rightSample c i <;>
    by_cases hlt : leftSample c i < rightSample c i <;>
    cases hm1 : i.microSwitch1 <;>
    cases hm2 : i.microSwitch2 <;>
    cases hadj : i.isAdjusting <;>
    simp [branchEffects, printlnCount, ht, hgt, hlt, hm1, hm2, hadj]

lemma ldrReadCount_branchEffects (t : Ldr) (c : Config) (i : Inputs) :
    ldrReadCount t (branchEffects c i) = 0 := by
  by_cases ht : |ldr_1Diff c i| > c.THRESHOLD_TURN <;>
    by_cases hgt : leftSample c i > rightSample c i <;>
    by_cases hlt : leftSample c i < rightSample c i <;>
    cases hm1 : i.microSwitch1 <;>
    cases hm2 : i.microSwitch2 <;>
    cases hadj : i.isAdjusting <;>
    simp [branchEffects, ldrReadCount, ht, hgt, hlt, hm1, hm2, hadj]

/-- C8: every call of `adjust` performs exactly one `Serial.println`, that
is, exactly one line terminator reaches the log, whatever branch runs. -/
theorem oneLogTerminatorPerCall (c : Config) (i : Inputs)
    (cs : ControllerState) : printlnCount (adjust c i cs).2 = 1 := by
  have hh : printlnCount (headerEffects c i) = 0 := by
    simp [headerEffects, printlnCount]
  simp [adjust, printlnCount_append, hh, printlnCount_branchEffects]

/-- C9: each LDR is read exactly twice per call; the value of the first
read of each sensor is dead: changing it changes neither the digital
writes nor the serial text, and the samples driving the decision are the
second reads scaled by the calibration factors. -/
theorem firstLdrReadDiscarded (c : Config) (i : Inputs) (cs : ControllerState)
    (a b : ℚ) :
    ldrReadCount Ldr.ldr1 (adjust c i cs).2 = 2
      ∧ ldrReadCount Ldr.ldr2 (adjust c i cs).2 = 2
      ∧ leftSample c i = i.ldr2Second * c.left_cal
      ∧ rightSample c i = i.ldr1Second * c.right_cal
      ∧ writeList (adjust c { i with ldr1First := a, ldr2First := b } cs).2
          = writeList (adjust c i cs).2
      ∧ lineOf (adjust c { i with ldr1First := a, ldr2First := b } cs).2
          = lineOf (adjust c i cs).2 := by
  have hh : ∀ t, ldrReadCount t (headerEffects c i)
      = ldrReadCount t [Effect.ldrRead Ldr.ldr1 i.ldr1First,
          Effect.ldrRead Ldr.ldr1 i.ldr1Second,
          Effect.ldrRead Ldr.ldr2 i.ldr2First,
          Effect.ldrRead Ldr.ldr2 i.ldr2Second] := by
    intro t
    simp [headerEffects, ldrReadCount, List.countP_cons]
  refine ⟨?_, ?_, rfl, rfl, rfl, rfl⟩ <;>
    · show ldrReadCount _ (headerEffects c i ++ branchEffects c i) = 2
      rw [ldrReadCount_append, ldrReadCount_branchEffects, hh]
      simp [ldrReadCount, List.countP_cons]
      rfl

/-- C4: when the left limit switch reads active (raw pin low) and the left
sample exceeds the right sample, the right relay receives an explicit off
command and both relays end the call off, whatever `isAdjusting` and the
previous pin levels were. -/
theorem leftLimitForcesOff (c : Config) (i : Inputs) (cs : ControllerState)
    (rs : RelayState) (hsw : i.microSwitch1 = false)
    (hgt : rightSample c i < leftSample c i) :
    (Pin.relay1, false) ∈ writeList (adjust c i cs).2
      ∧ runEffects rs (adjust c i cs).2 = ⟨false, false⟩ := by
  have hlt : ¬ leftSample c i < rightSample c i := not_lt.mpr hgt.le
  rcases rs with ⟨a, b⟩
  by_cases ht : |ldr_1Diff c i| > c.THRESHOLD_TURN <;>
    cases hm2 : i.microSwitch2 <;>
    cases hadj : i.isAdjusting <;>
    constructor <;>
    simp [adjust, writeList_append, branchEffects, headerEffects, writeList,
      runEffects_append, runEffects_headerEffects, runEffects, applyEffect,
      ht, hgt, hlt, hsw, hm2, hadj]

/-- Concrete input of scenario 2 of the spec: left switch active (raw pin
low), second LDR reads 1 (right) and 5 (left), `isAdjusting = true`. -/
def iW2 : Inputs := ⟨0, false, true, 0, 1, 0, 5, true⟩

/-- Witness for C4 at scenario 2. -/
theorem leftLimitForcesOff_witness :
    iW2.microSwitch1 = false
      ∧ rightSample cW iW2 < leftSample cW iW2
      ∧ ((Pin.relay1, false) ∈ writeList (adjust cW iW2 ⟨false, false⟩).2
          ∧ runEffects ⟨false, true⟩ (adjust cW iW2 ⟨false, false⟩).2
              = ⟨false, false⟩) :=
  ⟨rfl, by norm_num [leftSample, rightSample, cW, iW2],
   leftLimitForcesOff cW iW2 ⟨false, false⟩ ⟨false, true⟩ rfl
     (by norm_num [leftSample, rightSample, cW, iW2])⟩

/-- C5: with a calibrated left sample of 5, right sample of 1, threshold 2,
the left limit switch inactive (raw pin high) and `isAdjusting` set, the
call ends with the right relay on and the left relay off, and the log line
contains "turn left". -/
theorem scenario1TurnLeft (c : Config) (i : Inputs) (cs : ControllerState)
    (rs : RelayState) (hL : leftSample c i = 5) (hR : rightSample c i = 1)
    (hT : c.THRESHOLD_TURN = 2) (hsw : i.microSwitch1 = true)
    (hadj : i.isAdjusting = true) :
    runEffects rs (adjust c i cs).2 = ⟨false, true⟩
      ∧ strContainsSub (lineOf (adjust c i cs).2) "turn left" := by
  have ht : |ldr_1Diff c i| > c.THRESHOLD_TURN := by
    rw [ldr_1Diff, hL, hR, hT]; norm_num
  have hgt : leftSample c i > rightSample c i := by rw [hL, hR]; norm_num
  have hlt : ¬ leftSample c i < rightSample c i := by rw [hL, hR]; norm_num
  have hbr : branchEffects c i
      = [Effect.serialPrint " (turn", Effect.serialPrint " left",
         Effect.digitalWrite Pin.relay0 false,
         Effect.digitalWrite Pin.relay1 true,
         Effect.serialPrintln ") "] := by
    simp [branchEffects, ht, hgt, hlt, hsw, hadj]
  constructor
  · rcases rs with ⟨a, b⟩
    show runEffects _ (headerEffects c i ++ branchEffects c i) = _
    rw [runEffects_append, runEffects_headerEffects, hbr]
    simp [runEffects, applyEffect]
  · show strContainsSub (lineOf (headerEffects c i ++ branchEffects c i)) _
    rw [lineOf_append, hbr]
    apply strContainsSub_append_right
    decide

/-- Witness for C5 at scenario 1. -/
theorem scenario1TurnLeft_witness :
    leftSample cW iW1 = 5 ∧ rightSample cW iW1 = 1 ∧ cW.THRESHOLD_TURN = 2
      ∧ iW1.microSwitch1 = true ∧ iW1.isAdjusting = true
      ∧ (runEffects ⟨false, false⟩ (adjust cW iW1 ⟨false, false⟩).2
            = ⟨false, true⟩
          ∧ strContainsSub (lineOf (adjust cW iW1 ⟨false, false⟩).2)
              "turn left") :=
  ⟨by norm_num [leftSample, cW, iW1], by norm_num [rightSample, cW, iW1],
   rfl, rfl, rfl,
   scenario1TurnLeft cW iW1 ⟨false, false⟩ ⟨false, false⟩
     (by norm_num [leftSample, cW, iW1]) (by norm_num [rightSample, cW, iW1])
     rfl rfl rfl⟩

/-- C10: with a nonnegative threshold, entering the turn branch forces the
two samples apart, so exactly one of the two direction if-bodies runs
(witnessed by exactly one direction-marker print); the exact-equality
fall-through is unreachable there. -/
theorem turnBranchOneDirection (c : Config) (i : Inputs)
    (h0 : 0 ≤ c.THRESHOLD_TURN) (ht : |ldr_1Diff c i| > c.THRESHOLD_TURN) :
    directionMarkCount (branchEffects c i) = 1
      ∧ leftSample c i ≠ rightSample c i := by
  have hne : leftSample c i ≠ rightSample c i := by
    intro he
    rw [ldr_1Diff, he, sub_self, abs_zero] at ht
    exact absurd ht (not_lt.mpr h0)
  refine ⟨?_, hne⟩
  rcases lt_or_gt_of_ne hne with hlt | hgt
  · have hgt2 : ¬ leftSample c i > rightSample c i := not_lt.mpr hlt.le
    cases hm1 : i.microSwitch1 <;> cases hm2 : i.microSwitch2 <;>
      cases hadj : i.isAdjusting <;>
      simp [branchEffects, directionMarkCount, ht, hlt, hgt2, hm1, hm2, hadj]
  · have hlt2 : ¬ leftSample c i < rightSample c i := not_lt.mpr hgt.le
    cases hm1 : i.microSwitch1 <;> cases hm2 : i.microSwitch2 <;>
      cases hadj : i.isAdjusting <;>
      simp [branchEffects, directionMarkCount, ht, hgt, hlt2, hm1, hm2, hadj]

/-- Witness for C10 at scenario 1. -/
theorem turnBranchOneDirection_witness :
    (0 : ℚ) ≤ cW.THRESHOLD_TURN
      ∧ |ldr_1Diff cW iW1| > cW.THRESHOLD_TURN
      ∧ (directionMarkCount (branchEffects cW iW1) = 1
          ∧ leftSample cW iW1 ≠ rightSample cW iW1) :=
  ⟨by norm_num [cW], by norm_num [ldr_1Diff, leftSample, rightSample, cW, iW1],
   turnBranchOneDirection cW iW1 (by norm_num [cW])
     (by norm_num [ldr_1Diff, leftSample, rightSample, cW, iW1])⟩

/-- C3 (amended): with `isAdjusting` false, both relays end every call off,
whatever the samples and switches, and the log line contains "sleeping". -/
theorem notAdjustingBothRelaysOff (c : Config) (i : Inputs)
    (cs : ControllerState) (rs : RelayState) (hadj : i.isAdjusting = false) :
    runEffects rs (adjust c i cs).2 = ⟨false, false⟩
      ∧ strContainsSub (lineOf (adjust c i cs).2) "sleeping" := by
  constructor
  · rcases rs with ⟨a, b⟩
    show runEffects _ (headerEffects c i ++ branchEffects c i) = _
    rw [runEffects_append, runEffects_headerEffects]
    by_cases ht : |ldr_1Diff c i| > c.THRESHOLD_TURN <;>
      by_cases hgt : leftSample c i > rightSample c i <;>
      by_cases hlt : leftSample c i < rightSample c i <;>
      cases hm1 : i.microSwitch1 <;>
      cases hm2 : i.microSwitch2 <;>
      simp [branchEffects, runEffects, applyEffect, ht, hgt, hlt, hm1, hm2, hadj]
  · show strContainsSub (lineOf (headerEffects c i ++ branchEffects c i)) _
    rw [lineOf_append]
    apply strContainsSub_append_right
    by_cases ht : |ldr_1Diff c i| > c.THRESHOLD_TURN <;>
      by_cases hgt : leftSample c i > rightSample c i <;>
      by_cases hlt : leftSample c i < rightSample c i <;>
      cases hm1 : i.microSwitch1 <;>
      cases hm2 : i.microSwitch2 <;>
      (simp [branchEffects, ht, hgt, hlt, hm1, hm2, hadj]; decide)

/-- Concrete input of scenario 4 of the spec: second LDR reads 5 (right)
and 1 (left), both switches inactive, `isAdjusting = false`. -/
def iW4 : Inputs := ⟨0, true, true, 0, 5, 0, 1, false⟩

/-- Witness for C3 (amended) at scenario 4. -/
theorem notAdjustingBothRelaysOff_witness :
    iW4.isAdjusting = false
      ∧ (runEffects ⟨true, false⟩ (adjust cW iW4 ⟨false, false⟩).2
            = ⟨false, false⟩
          ∧ strContainsSub (lineOf (adjust cW iW4 ⟨false, false⟩).2)
              "sleeping") :=
  ⟨rfl, notAdjustingBothRelaysOff cW iW4 ⟨false, false⟩ ⟨true, false⟩ rfl⟩

/-- Counterexample for C3 as stated: at scenario 4 (left sample 1, right
sample 5, `isAdjusting = false`, threshold 2) the call takes the turn
branch and closes the line with " - sleeping)", so the log line does not
end with "sleeping". -/
theorem notAdjustingLineEnd_counterexample :
    ¬ strEndsWith (lineOf (adjust cW iW4 ⟨false, false⟩).2) "sleeping" := by
  have hgate : |ldr_1Diff cW iW4| > cW.THRESHOLD_TURN := by
    norm_num [ldr_1Diff, leftSample, rightSample, cW, iW4]
  have hgt : ¬ leftSample cW iW4 > rightSample cW iW4 := by
    norm_num [leftSample, rightSample, cW, iW4]
  have hlt : leftSample cW iW4 < rightSample cW iW4 := by
    norm_num [leftSample, rightSample, cW, iW4]
  have hbr : branchEffects cW iW4
      = [Effect.serialPrint " (turn", Effect.serialPrint " right",
         Effect.digitalWrite Pin.relay1 false,
         Effect.digitalWrite Pin.relay1 false,
         Effect.digitalWrite Pin.relay0 false,
         Effect.serialPrintln " - sleeping)"] := by
    simp [branchEffects, hgate, hgt, hlt,
      show iW4.microSwitch2 = true from rfl,
      show iW4.isAdjusting = false from rfl]
  intro h
  rw [strEndsWith] at h
  have hline : lineOf (adjust cW iW4 ⟨false, false⟩).2
      = lineOf (headerEffects cW iW4) ++ lineOf (branchEffects cW iW4) := by
    show lineOf (headerEffects cW iW4 ++ branchEffects cW iW4) = _
    exact lineOf_append _ _
  rw [hline, hbr, toList_append] at h
  exact absurd (suffix_of_suffix_length_le h (List.suffix_append _ _) (by decide))
    (by decide)
